import Mathlib

/-!
Verification of the Derivatives-Pricing-Library (OptionsLib).

The library has two components:
* `black_scholes` — vectorized Black–Scholes–Merton price and Greeks for a
  European call or put (NumPy arrays, scipy.stats.norm for the normal CDF/PDF);
* `monte_carlo_european` — Monte Carlo GBM pricer seeded with `np.random.seed(42)`.

Modelling choices:
* real numbers stand for Python floats;
* a NumPy array is a `List ℝ`; a scalar is a one-element list; elementwise
  binary operations follow NumPy 1-D broadcasting (`bcast2`), so shapes are
  modelled by list lengths;
* `scipy.stats.norm.cdf` / `.pdf` are the cumulative distribution and density
  of the standard Gaussian, taken from Mathlib's `gaussianPDFReal`;
* a Python `raise ValueError` is `Except.error` with the source's message;
* NumPy's global random generator is a `RandomLib` (an arbitrary deterministic
  sampler indexed by the seeded state) together with an explicit incoming
  state, so that re-seeding inside `monte_carlo_european` is observable.
-/

namespace DerivLib

noncomputable section

/-- Standard normal probability density, `scipy.stats.norm.pdf`. -/
def normPdf (x : ℝ) : ℝ := ProbabilityTheory.gaussianPDFReal 0 1 x

open MeasureTheory in
/-- Standard normal cumulative distribution function, `scipy.stats.norm.cdf`. -/
def normCdf (x : ℝ) : ℝ := ∫ u in Set.Iic x, normPdf u

/-- NumPy 1-D broadcasting of an elementwise binary operation: equal lengths act
pointwise; a one-element array (a scalar) broadcasts against the other operand;
non-broadcastable shapes give the empty array. -/
def bcast2 (f : ℝ → ℝ → ℝ) (a b : List ℝ) : List ℝ :=
  if a.length = b.length then List.zipWith f a b
  else if a.length = 1 then b.map (f a.headI)
  else if b.length = 1 then a.map (fun x => f x b.headI)
  else []

/-- Length of the result of NumPy 1-D broadcasting of two shapes. -/
def bcLen (n m : ℕ) : ℕ :=
  if n = m then n else if n = 1 then m else if m = 1 then n else 0

/-- The array `np.sqrt(t)` from `black_scholes`. -/
def sqrtArr (t : List ℝ) : List ℝ := t.map Real.sqrt

/-- The array `np.exp(c * t)` (used with `c = -q` and `c = -r`). -/
def expArr (c : ℝ) (t : List ℝ) : List ℝ := t.map fun x => Real.exp (c * x)

/-- The array `d1 = (np.log(S / K) + (r - q + 0.5 * sigma**2) * t) / (sigma * sqrt_t)`
from `black_scholes`. -/
def d1Arr (S K : List ℝ) (r q : ℝ) (t sigma : List ℝ) : List ℝ :=
  bcast2 (· / ·)
    (bcast2 (· + ·) ((bcast2 (· / ·) S K).map Real.log)
      (bcast2 (· * ·) (sigma.map fun s => r - q + 0.5 * s ^ 2) t))
    (bcast2 (· * ·) sigma (sqrtArr t))

/-- The array `d2 = d1 - sigma * sqrt_t` from `black_scholes`. -/
def d2Arr (S K : List ℝ) (r q : ℝ) (t sigma : List ℝ) : List ℝ :=
  bcast2 (· - ·) (d1Arr S K r q t sigma) (bcast2 (· * ·) sigma (sqrtArr t))

/-- The array `Nd1 = norm.cdf(d1)`. -/
def Nd1Arr (S K : List ℝ) (r q : ℝ) (t sigma : List ℝ) : List ℝ :=
  (d1Arr S K r q t sigma).map normCdf

/-- The array `Nd2 = norm.cdf(d2)`. -/
def Nd2Arr (S K : List ℝ) (r q : ℝ) (t sigma : List ℝ) : List ℝ :=
  (d2Arr S K r q t sigma).map normCdf

/-- The array `Nmd1 = norm.cdf(-d1)`. -/
def Nmd1Arr (S K : List ℝ) (r q : ℝ) (t sigma : List ℝ) : List ℝ :=
  (d1Arr S K r q t sigma).map fun x => normCdf (-x)

/-- The array `Nmd2 = norm.cdf(-d2)`. -/
def Nmd2Arr (S K : List ℝ) (r q : ℝ) (t sigma : List ℝ) : List ℝ :=
  (d2Arr S K r q t sigma).map fun x => normCdf (-x)

/-- The array `norm.pdf(d1)`. -/
def pdfd1Arr (S K : List ℝ) (r q : ℝ) (t sigma : List ℝ) : List ℝ :=
  (d1Arr S K r q t sigma).map normPdf

/-- Call branch: `price = S * np.exp(-q * t) * Nd1 - K * np.exp(-r * t) * Nd2`. -/
def callPriceArr (S K : List ℝ) (r q : ℝ) (t sigma : List ℝ) : List ℝ :=
  bcast2 (· - ·)
    (bcast2 (· * ·) (bcast2 (· * ·) S (expArr (-q) t)) (Nd1Arr S K r q t sigma))
    (bcast2 (· * ·) (bcast2 (· * ·) K (expArr (-r) t)) (Nd2Arr S K r q t sigma))

/-- Call branch: `delta = np.exp(-q * t) * Nd1`. -/
def callDeltaArr (S K : List ℝ) (r q : ℝ) (t sigma : List ℝ) : List ℝ :=
  bcast2 (· * ·) (expArr (-q) t) (Nd1Arr S K r q t sigma)

/-- Call branch: `theta = (-S * sigma * np.exp(-q * t) * norm.pdf(d1)) / (2 * sqrt_t)
- r * K * np.exp(-r * t) * Nd2 + q * S * np.exp(-q * t) * Nd1`. -/
def callThetaArr (S K : List ℝ) (r q : ℝ) (t sigma : List ℝ) : List ℝ :=
  bcast2 (· + ·)
    (bcast2 (· - ·)
      (bcast2 (· / ·)
        (bcast2 (· * ·)
          (bcast2 (· * ·) (bcast2 (· * ·) (S.map Neg.neg) sigma) (expArr (-q) t))
          (pdfd1Arr S K r q t sigma))
        ((sqrtArr t).map fun x => 2 * x))
      (bcast2 (· * ·) (bcast2 (· * ·) (K.map fun k => r * k) (expArr (-r) t))
        (Nd2Arr S K r q t sigma)))
    (bcast2 (· * ·) (bcast2 (· * ·) (S.map fun s => q * s) (expArr (-q) t))
      (Nd1Arr S K r q t sigma))

/-- Call branch: `rho = K * t * np.exp(-r * t) * Nd2`. -/
def callRhoArr (S K : List ℝ) (r q : ℝ) (t sigma : List ℝ) : List ℝ :=
  bcast2 (· * ·) (bcast2 (· * ·) (bcast2 (· * ·) K t) (expArr (-r) t))
    (Nd2Arr S K r q t sigma)

/-- Put branch: `price = K * np.exp(-r * t) * Nmd2 - S * np.exp(-q * t) * Nmd1`. -/
def putPriceArr (S K : List ℝ) (r q : ℝ) (t sigma : List ℝ) : List ℝ :=
  bcast2 (· - ·)
    (bcast2 (· * ·) (bcast2 (· * ·) K (expArr (-r) t)) (Nmd2Arr S K r q t sigma))
    (bcast2 (· * ·) (bcast2 (· * ·) S (expArr (-q) t)) (Nmd1Arr S K r q t sigma))

/-- Put branch: `delta = np.exp(-q * t) * Nmd1`. -/
def putDeltaArr (S K : List ℝ) (r q : ℝ) (t sigma : List ℝ) : List ℝ :=
  bcast2 (· * ·) (expArr (-q) t) (Nmd1Arr S K r q t sigma)

/-- Put branch: `theta = (-S * sigma * np.exp(-q * t) * norm.pdf(d1)) / (2 * sqrt_t)
+ r * K * np.exp(-r * t) * Nmd2 - q * S * np.exp(-q * t) * Nmd1`. -/
def putThetaArr (S K : List ℝ) (r q : ℝ) (t sigma : List ℝ) : List ℝ :=
  bcast2 (· - ·)
    (bcast2 (· + ·)
      (bcast2 (· / ·)
        (bcast2 (· * ·)
          (bcast2 (· * ·) (bcast2 (· * ·) (S.map Neg.neg) sigma) (expArr (-q) t))
          (pdfd1Arr S K r q t sigma))
        ((sqrtArr t).map fun x => 2 * x))
      (bcast2 (· * ·) (bcast2 (· * ·) (K.map fun k => r * k) (expArr (-r) t))
        (Nmd2Arr S K r q t sigma)))
    (bcast2 (· * ·) (bcast2 (· * ·) (S.map fun s => q * s) (expArr (-q) t))
      (Nmd1Arr S K r q t sigma))

/-- Put branch: `rho = -K * t * np.exp(-r * t) * Nmd2`. -/
def putRhoArr (S K : List ℝ) (r q : ℝ) (t sigma : List ℝ) : List ℝ :=
  bcast2 (· * ·) (bcast2 (· * ·) (bcast2 (· * ·) (K.map Neg.neg) t) (expArr (-r) t))
    (Nmd2Arr S K r q t sigma)

/-- Both branches: `gamma = (np.exp(-q * t) * norm.pdf(d1)) / (S * sigma * sqrt_t)`. -/
def gammaArr (S K : List ℝ) (r q : ℝ) (t sigma : List ℝ) : List ℝ :=
  bcast2 (· / ·) (bcast2 (· * ·) (expArr (-q) t) (pdfd1Arr S K r q t sigma))
    (bcast2 (· * ·) (bcast2 (· * ·) S sigma) (sqrtArr t))

/-- Both branches: `vega = S * sqrt_t * np.exp(-q * t) * norm.pdf(d1)`. -/
def vegaArr (S K : List ℝ) (r q : ℝ) (t sigma : List ℝ) : List ℝ :=
  bcast2 (· * ·) (bcast2 (· * ·) (bcast2 (· * ·) S (sqrtArr t)) (expArr (-q) t))
    (pdfd1Arr S K r q t sigma)

/-- Shallow embedding of `black_scholes(S, K, r, t, sigma, option_Type, q)` from
`src/OptionsLib.ipynb`.  The result tuple is
`(price, delta, gamma, vega, theta, rho)`; `raise ValueError` is `Except.error`.
The early return for `np.any(t <= 0)` happens before the option-type dispatch,
and its Greeks are `np.zeros_like(S)`; its intrinsic value defaults every
non-"Call" `option_Type` to the put branch, exactly as the source's
conditional expression does. -/
def black_scholes (S K : List ℝ) (r : ℝ) (t sigma : List ℝ)
    (option_Type : String := "Call") (q : ℝ := 0) :
    Except String (List ℝ × List ℝ × List ℝ × List ℝ × List ℝ × List ℝ) :=
  if ∃ x ∈ t, x ≤ 0 then
    Except.ok
      ((if option_Type = "Call" then (bcast2 (· - ·) S K).map (fun x => max 0 x)
        else (bcast2 (· - ·) K S).map (fun x => max 0 x)),
       List.replicate S.length 0, List.replicate S.length 0, List.replicate S.length 0,
       List.replicate S.length 0, List.replicate S.length 0)
  else if option_Type = "Call" then
    Except.ok
      (callPriceArr S K r q t sigma, callDeltaArr S K r q t sigma,
       gammaArr S K r q t sigma, vegaArr S K r q t sigma,
       callThetaArr S K r q t sigma, callRhoArr S K r q t sigma)
  else if option_Type = "Put" then
    Except.ok
      (putPriceArr S K r q t sigma, putDeltaArr S K r q t sigma,
       gammaArr S K r q t sigma, vegaArr S K r q t sigma,
       putThetaArr S K r q t sigma, putRhoArr S K r q t sigma)
  else
    Except.error "Invalid option type. Choose \"Call\" or \"Put\"."

/-- Model of NumPy's global pseudo-random generator: `ofSeed n` is the internal
state installed by `np.random.seed(n)`, and `sample st i j` is the `(i, j)`
entry of a `standard_normal` matrix drawn from state `st`.  The concrete
sampler is arbitrary but fixed, which is all `monte_carlo_european` relies on. -/
structure RandomLib where
  ofSeed : ℕ → ℕ
  sample : ℕ → ℕ → ℕ → ℝ

/-- Events of `monte_carlo_european`, in program order, used to observe how much
simulation work happens before an error is raised. -/
inductive MCStep where
  | drewVariates (n m : ℕ) : MCStep
  | builtColumn (j : ℕ) : MCStep
  | computedPayoffs : MCStep
  | discounted : MCStep
deriving DecidableEq, Repr

/-- Column `j` of price path `i` in `monte_carlo_european`:
`S[:, 0] = S0` and, for `t` in `range(1, num_steps)`,
`S[:, t] = S[:, t - 1] * np.exp((r - 0.5 * sigma**2) * dt + sigma * np.sqrt(dt) * Z[:, t])`.
`Zi` is row `i` of the variate matrix `Z`. -/
def path_col (S0 r sigma dt : ℝ) (Zi : ℕ → ℝ) : ℕ → ℝ
  | 0 => S0
  | j + 1 =>
      path_col S0 r sigma dt Zi j *
        Real.exp ((r - 0.5 * sigma ^ 2) * dt + sigma * Real.sqrt dt * Zi (j + 1))

/-- Shallow embedding of `monte_carlo_european(S0, K, T, r, sigma, option_type,
num_simulations, num_steps)` from `src/OptionsLib.ipynb`, instrumented with the
list of simulation events performed, in program order.  `lib` is the ambient
NumPy generator implementation and `state` the generator state left by earlier
code; the function starts with `np.random.seed(42)`, so `state` is never
consulted.  The result component is the returned price, or `Except.error` for
the `raise ValueError`. -/
def monte_carlo_run (lib : RandomLib) (state : ℕ) (S0 K T r sigma : ℝ)
    (option_type : String := "Call") (num_simulations : ℕ := 10000)
    (num_steps : ℕ := 252) : List MCStep × Except String ℝ :=
  let dt := T / (num_steps : ℝ)
  let seeded := lib.ofSeed 42
  let Z : ℕ → ℕ → ℝ := fun i j => lib.sample seeded i j
  let pathS : ℕ → ℕ → ℝ := fun i j => path_col S0 r sigma dt (Z i) j
  let simWork := MCStep.drewVariates num_simulations num_steps ::
    (List.range' 1 (num_steps - 1)).map MCStep.builtColumn
  let ST : ℕ → ℝ := fun i => pathS i (num_steps - 1)
  if option_type = "Call" then
    (simWork ++ [MCStep.computedPayoffs, MCStep.discounted],
     Except.ok (Real.exp (-r * T) *
       ((Finset.range num_simulations).sum (fun i => max (ST i - K) 0) /
         (num_simulations : ℝ))))
  else if option_type = "Put" then
    (simWork ++ [MCStep.computedPayoffs, MCStep.discounted],
     Except.ok (Real.exp (-r * T) *
       ((Finset.range num_simulations).sum (fun i => max (K - ST i) 0) /
         (num_simulations : ℝ))))
  else
    (simWork, Except.error "Invalid Option Type: Choose 'Put' or 'Call'")

/-- The value returned (or error raised) by `monte_carlo_european`. -/
def monte_carlo_european (lib : RandomLib) (state : ℕ) (S0 K T r sigma : ℝ)
    (option_type : String := "Call") (num_simulations : ℕ := 10000)
    (num_steps : ℕ := 252) : Except String ℝ :=
  (monte_carlo_run lib state S0 K T r sigma option_type num_simulations num_steps).2

/-- A trivial concrete generator implementation, used for witnesses. -/
def zeroLib : RandomLib where
  ofSeed := id
  sample := fun _ _ _ => 0

/-- Shapes (modelled as lengths) of the six fields of a `black_scholes`
result, or `none` when the call raised. -/
def shapesOf (e : Except String (List ℝ × List ℝ × List ℝ × List ℝ × List ℝ × List ℝ)) :
    Option (ℕ × ℕ × ℕ × ℕ × ℕ × ℕ) :=
  match e with
  | Except.error _ => none
  | Except.ok (p, d, g, v, th, rh) =>
      some (p.length, d.length, g.length, v.length, th.length, rh.length)

lemma normPdf_neg (x : ℝ) : normPdf (-x) = normPdf x := by
  simp [normPdf, ProbabilityTheory.gaussianPDFReal, neg_sq]

open MeasureTheory in
lemma integrable_normPdf : Integrable normPdf :=
  ProbabilityTheory.integrable_gaussianPDFReal 0 1

open MeasureTheory in
lemma normCdf_add_normCdf_neg (x : ℝ) : normCdf x + normCdf (-x) = 1 := by
  have h1 : normCdf (-x) = ∫ u in Set.Ioi x, normPdf u := by
    have h2 : (∫ u in Set.Iic (-x), normPdf u) = ∫ u in Set.Iic (-x), normPdf (-u) := by
      refine setIntegral_congr_fun measurableSet_Iic ?_
      intro u _
      exact (normPdf_neg u).symm
    rw [normCdf, h2, integral_comp_neg_Iic, neg_neg]
  rw [normCdf, h1, intervalIntegral.integral_Iic_add_Ioi integrable_normPdf.integrableOn
    integrable_normPdf.integrableOn]
  exact ProbabilityTheory.integral_gaussianPDFReal_eq_one 0 one_ne_zero

lemma normCdf_zero : normCdf 0 = 1 / 2 := by
  have h := normCdf_add_normCdf_neg 0
  rw [neg_zero] at h
  linarith

@[simp] lemma bcLen_self (n : ℕ) : bcLen n n = n := by simp [bcLen]

@[simp] lemma length_bcast2 (f : ℝ → ℝ → ℝ) (a b : List ℝ) :
    (bcast2 f a b).length = bcLen a.length b.length := by
  unfold bcast2 bcLen
  split_ifs with h1 h2 h3 <;> simp [*]

lemma bcast2_eq_zipWith (f : ℝ → ℝ → ℝ) {a b : List ℝ} (h : a.length = b.length) :
    bcast2 f a b = List.zipWith f a b := by
  rw [bcast2, if_pos h]

lemma getD_bcast2 (f : ℝ → ℝ → ℝ) {a b : List ℝ} (h : a.length = b.length)
    {i : ℕ} (hi : i < a.length) :
    (bcast2 f a b).getD i 0 = f (a.getD i 0) (b.getD i 0) := by
  rw [bcast2_eq_zipWith f h]
  rw [List.getD_eq_getElem _ _ (by simp [List.length_zipWith, ← h, hi])]
  rw [List.getElem_zipWith]
  rw [List.getD_eq_getElem _ _ hi, List.getD_eq_getElem _ _ (h ▸ hi)]

lemma getD_map (g : ℝ → ℝ) {a : List ℝ} {i : ℕ} (hi : i < a.length) :
    (a.map g).getD i 0 = g (a.getD i 0) := by
  rw [List.getD_eq_getElem _ _ (by simpa using hi), List.getElem_map,
    List.getD_eq_getElem _ _ hi]

lemma length_d1Arr {S K t sigma : List ℝ} (r q : ℝ)
    (hK : K.length = S.length) (ht : t.length = S.length) (hs : sigma.length = S.length) :
    (d1Arr S K r q t sigma).length = S.length := by
  simp [d1Arr, sqrtArr, hK, ht, hs]

lemma length_d2Arr {S K t sigma : List ℝ} (r q : ℝ)
    (hK : K.length = S.length) (ht : t.length = S.length) (hs : sigma.length = S.length) :
    (d2Arr S K r q t sigma).length = S.length := by
  simp [d2Arr, sqrtArr, hK, ht, hs, length_d1Arr r q hK ht hs]

lemma getD_callDeltaArr {S K t sigma : List ℝ} (r q : ℝ)
    (hK : K.length = S.length) (ht : t.length = S.length) (hs : sigma.length = S.length)
    {i : ℕ} (hi : i < S.length) :
    (callDeltaArr S K r q t sigma).getD i 0 =
      Real.exp (-q * t.getD i 0) * normCdf ((d1Arr S K r q t sigma).getD i 0) := by
  unfold callDeltaArr Nd1Arr expArr
  rw [getD_bcast2 _ (by simp [ht, length_d1Arr r q hK ht hs])
        (by simp [ht, hi]),
      getD_map _ (by simp [ht, hi]),
      getD_map _ (by simp [length_d1Arr r q hK ht hs, hi])]

lemma getD_putDeltaArr {S K t sigma : List ℝ} (r q : ℝ)
    (hK : K.length = S.length) (ht : t.length = S.length) (hs : sigma.length = S.length)
    {i : ℕ} (hi : i < S.length) :
    (putDeltaArr S K r q t sigma).getD i 0 =
      Real.exp (-q * t.getD i 0) * normCdf (-((d1Arr S K r q t sigma).getD i 0)) := by
  unfold putDeltaArr Nmd1Arr expArr
  rw [getD_bcast2 _ (by simp [ht, length_d1Arr r q hK ht hs])
        (by simp [ht, hi]),
      getD_map _ (by simp [ht, hi]),
      getD_map _ (by simp [length_d1Arr r q hK ht hs, hi])]

lemma getD_callPriceArr {S K t sigma : List ℝ} (r q : ℝ)
    (hK : K.length = S.length) (ht : t.length = S.length) (hs : sigma.length = S.length)
    {i : ℕ} (hi : i < S.length) :
    (callPriceArr S K r q t sigma).getD i 0 =
      S.getD i 0 * Real.exp (-q * t.getD i 0) *
          normCdf ((d1Arr S K r q t sigma).getD i 0) -
        K.getD i 0 * Real.exp (-r * t.getD i 0) *
          normCdf ((d2Arr S K r q t sigma).getD i 0) := by
  have hL1 := length_d1Arr r q hK ht hs
  have hL2 := length_d2Arr r q hK ht hs
  unfold callPriceArr Nd1Arr Nd2Arr expArr
  rw [getD_bcast2 _ (by simp [hK, ht, hs, hL1, hL2]) (by simp [hK, ht, hs, hL1, hL2, hi]),
      getD_bcast2 _ (by simp [hK, ht, hs, hL1, hL2]) (by simp [hK, ht, hs, hL1, hL2, hi]),
      getD_bcast2 _ (by simp [hK, ht, hs, hL1, hL2]) (by simp [hK, ht, hs, hL1, hL2, hi]),
      getD_map _ (by simp [hK, ht, hs, hL1, hL2, hi]),
      getD_map _ (by simp [hK, ht, hs, hL1, hL2, hi]),
      getD_bcast2 _ (by simp [hK, ht, hs, hL1, hL2]) (by simp [hK, ht, hs, hL1, hL2, hi]),
      getD_bcast2 _ (by simp [hK, ht, hs, hL1, hL2]) (by simp [hK, ht, hs, hL1, hL2, hi]),
      getD_map _ (by simp [hK, ht, hs, hL1, hL2, hi]),
      getD_map _ (by simp [hK, ht, hs, hL1, hL2, hi])]

lemma getD_putPriceArr {S K t sigma : List ℝ} (r q : ℝ)
    (hK : K.length = S.length) (ht : t.length = S.length) (hs : sigma.length = S.length)
    {i : ℕ} (hi : i < S.length) :
    (putPriceArr S K r q t sigma).getD i 0 =
      K.getD i 0 * Real.exp (-r * t.getD i 0) *
          normCdf (-((d2Arr S K r q t sigma).getD i 0)) -
        S.getD i 0 * Real.exp (-q * t.getD i 0) *
          normCdf (-((d1Arr S K r q t sigma).getD i 0)) := by
  have hL1 := length_d1Arr r q hK ht hs
  have hL2 := length_d2Arr r q hK ht hs
  unfold putPriceArr Nmd1Arr Nmd2Arr expArr
  rw [getD_bcast2 _ (by simp [hK, ht, hs, hL1, hL2]) (by simp [hK, ht, hs, hL1, hL2, hi]),
      getD_bcast2 _ (by simp [hK, ht, hs, hL1, hL2]) (by simp [hK, ht, hs, hL1, hL2, hi]),
      getD_bcast2 _ (by simp [hK, ht, hs, hL1, hL2]) (by simp [hK, ht, hs, hL1, hL2, hi]),
      getD_map _ (by simp [hK, ht, hs, hL1, hL2, hi]),
      getD_map _ (by simp [hK, ht, hs, hL1, hL2, hi]),
      getD_bcast2 _ (by simp [hK, ht, hs, hL1, hL2]) (by simp [hK, ht, hs, hL1, hL2, hi]),
      getD_bcast2 _ (by simp [hK, ht, hs, hL1, hL2]) (by simp [hK, ht, hs, hL1, hL2, hi]),
      getD_map _ (by simp [hK, ht, hs, hL1, hL2, hi]),
      getD_map _ (by simp [hK, ht, hs, hL1, hL2, hi])]

lemma bs_call_normal (S K t sigma : List ℝ) (r q : ℝ) (htpos : ∀ x ∈ t, 0 < x) :
    black_scholes S K r t sigma "Call" q =
      Except.ok
        (callPriceArr S K r q t sigma, callDeltaArr S K r q t sigma,
         gammaArr S K r q t sigma, vegaArr S K r q t sigma,
         callThetaArr S K r q t sigma, callRhoArr S K r q t sigma) := by
  unfold black_scholes
  rw [if_neg (by push_neg; exact htpos), if_pos rfl]

lemma bs_put_normal (S K t sigma : List ℝ) (r q : ℝ) (htpos : ∀ x ∈ t, 0 < x) :
    black_scholes S K r t sigma "Put" q =
      Except.ok
        (putPriceArr S K r q t sigma, putDeltaArr S K r q t sigma,
         gammaArr S K r q t sigma, vegaArr S K r q t sigma,
         putThetaArr S K r q t sigma, putRhoArr S K r q t sigma) := by
  unfold black_scholes
  rw [if_neg (by push_neg; exact htpos), if_neg (by decide), if_pos rfl]

lemma path_col_closed (S0 r sigma dt : ℝ) (Z : ℕ → ℝ) (n : ℕ) :
    path_col S0 r sigma dt Z n =
      S0 * Real.exp (∑ k in Finset.Icc 1 n,
        ((r - 0.5 * sigma ^ 2) * dt + sigma * Real.sqrt dt * Z k)) := by
  induction n with
  | zero => simp [path_col]
  | succ m ih =>
      rw [path_col, ih, Finset.sum_Icc_succ_top (by omega), mul_assoc, ← Real.exp_add]

lemma path_col_congr (S0 r sigma dt : ℝ) (Z Zother : ℕ → ℝ)
    (hZ : ∀ k, 1 ≤ k → Z k = Zother k) (n : ℕ) :
    path_col S0 r sigma dt Z n = path_col S0 r sigma dt Zother n := by
  induction n with
  | zero => rfl
  | succ m ih => rw [path_col, path_col, ih, hZ (m + 1) (by omega)]

lemma bcLen_comm (n m : ℕ) : bcLen n m = bcLen m n := by
  unfold bcLen
  split_ifs <;> omega

@[simp] lemma bcLen_one_left (m : ℕ) : bcLen 1 m = m := by
  unfold bcLen
  split_ifs <;> omega

@[simp] lemma bcLen_one_right (m : ℕ) : bcLen m 1 = m := by
  unfold bcLen
  split_ifs <;> omega

/-- In a NumPy-broadcastable batch of 1-D inputs — every length is 1 or the
common broadcast length `n`, and some input realizes `n` — all ten field
arrays of the normal path have length `n`. -/
lemma length_fields_bc {S K t sigma : List ℝ} (r q : ℝ) {n : ℕ}
    (hS : S.length = 1 ∨ S.length = n) (hK : K.length = 1 ∨ K.length = n)
    (ht : t.length = 1 ∨ t.length = n) (hs : sigma.length = 1 ∨ sigma.length = n)
    (hn : S.length = n ∨ K.length = n ∨ t.length = n ∨ sigma.length = n) :
    (callPriceArr S K r q t sigma).length = n ∧
    (callDeltaArr S K r q t sigma).length = n ∧
    (gammaArr S K r q t sigma).length = n ∧
    (vegaArr S K r q t sigma).length = n ∧
    (callThetaArr S K r q t sigma).length = n ∧
    (callRhoArr S K r q t sigma).length = n ∧
    (putPriceArr S K r q t sigma).length = n ∧
    (putDeltaArr S K r q t sigma).length = n ∧
    (putThetaArr S K r q t sigma).length = n ∧
    (putRhoArr S K r q t sigma).length = n := by
  rcases hS with hS | hS <;> rcases hK with hK | hK <;> rcases ht with ht | ht <;>
    rcases hs with hs | hs <;> rcases hn with hn | hn | hn | hn <;>
    simp [callPriceArr, callDeltaArr, gammaArr, vegaArr, callThetaArr, callRhoArr,
      putPriceArr, putDeltaArr, putThetaArr, putRhoArr, Nd1Arr, Nd2Arr, Nmd1Arr,
      Nmd2Arr, pdfd1Arr, d1Arr, d2Arr, expArr, sqrtArr, hS, hK, ht, hs] <;>
    omega

/-- C1: if any element of `t` is `≤ 0`, `black_scholes` returns for the entire
batch the intrinsic value — `max(0, S-K)` for a Call, `max(0, K-S)` for a Put —
as the price, together with zero arrays for all five Greeks, and none of the
Black–Scholes formula arrays appear in the result. -/
theorem C1_expiry_short_circuit (S K t sigma : List ℝ) (r q : ℝ)
    (h : ∃ x ∈ t, x ≤ 0) :
    black_scholes S K r t sigma "Call" q =
      Except.ok ((bcast2 (· - ·) S K).map (fun x => max 0 x),
        List.replicate S.length 0, List.replicate S.length 0, List.replicate S.length 0,
        List.replicate S.length 0, List.replicate S.length 0) ∧
    black_scholes S K r t sigma "Put" q =
      Except.ok ((bcast2 (· - ·) K S).map (fun x => max 0 x),
        List.replicate S.length 0, List.replicate S.length 0, List.replicate S.length 0,
        List.replicate S.length 0, List.replicate S.length 0) := by
  constructor
  · unfold black_scholes
    rw [if_pos h, if_pos rfl]
  · unfold black_scholes
    rw [if_pos h, if_neg (by decide)]

/-- Witness for C1 at a concrete expired input: price is the intrinsic value
and the Greeks are zero. -/
theorem C1_expiry_short_circuit_witness :
    (∃ x ∈ [(0 : ℝ)], x ≤ 0) ∧
    black_scholes [(100 : ℝ)] [(90 : ℝ)] 0 [(0 : ℝ)] [(1 : ℝ)] "Call" 0 =
      Except.ok ([(10 : ℝ)], [0], [0], [0], [0], [0]) ∧
    black_scholes [(100 : ℝ)] [(90 : ℝ)] 0 [(0 : ℝ)] [(1 : ℝ)] "Put" 0 =
      Except.ok ([(0 : ℝ)], [0], [0], [0], [0], [0]) := by
  have h : ∃ x ∈ [(0 : ℝ)], x ≤ 0 := ⟨0, by simp⟩
  have hc := C1_expiry_short_circuit [(100 : ℝ)] [(90 : ℝ)] [(0 : ℝ)] [(1 : ℝ)] 0 0 h
  refine ⟨h, ?_, ?_⟩
  · rw [hc.1]
    norm_num [bcast2, List.replicate]
  · rw [hc.2]
    norm_num [bcast2, List.replicate]

/-- C2 counterexample: with `t = [-1] ≤ 0` and the invalid option type
"Straddle", `black_scholes` does not raise; it silently returns the put-branch
intrinsic value `max(0, K-S)` with zero Greeks (the expiry short circuit runs
before the option-type validation, and its conditional expression defaults
every non-"Call" type to the put intrinsic). -/
theorem C2_invalid_type_cex :
    black_scholes [(1 : ℝ)] [(2 : ℝ)] 0 [(-1 : ℝ)] [(1 : ℝ)] "Straddle" 0 =
      Except.ok ([(1 : ℝ)], [0], [0], [0], [0], [0]) := by
  unfold black_scholes
  rw [if_pos ⟨-1, by simp, by norm_num⟩, if_neg (by decide)]
  norm_num [bcast2, List.replicate]

/-- C2 (amended): when every element of `t` is positive, calling
`black_scholes` with an `option_Type` outside Call/Put raises the
invalid-option-type error and produces no output; when some element of `t` is
`≤ 0` the invalid type is silently defaulted to the put intrinsic branch
instead (see the counterexample). -/
theorem C2_invalid_type_amended (S K t sigma : List ℝ) (r q : ℝ) (ty : String)
    (htpos : ∀ x ∈ t, 0 < x) (h1 : ty ≠ "Call") (h2 : ty ≠ "Put") :
    black_scholes S K r t sigma ty q =
      Except.error "Invalid option type. Choose \"Call\" or \"Put\"." := by
  unfold black_scholes
  rw [if_neg (by push_neg; exact htpos), if_neg h1, if_neg h2]

/-- Witness for the amended C2 at a concrete input. -/
theorem C2_invalid_type_amended_witness :
    (∀ x ∈ [(1 : ℝ)], 0 < x) ∧
    black_scholes [(1 : ℝ)] [(2 : ℝ)] 0 [(1 : ℝ)] [(1 : ℝ)] "Straddle" 0 =
      Except.error "Invalid option type. Choose \"Call\" or \"Put\"." := by
  have h : ∀ x ∈ [(1 : ℝ)], 0 < x := by norm_num
  exact ⟨h, C2_invalid_type_amended [(1 : ℝ)] [(2 : ℝ)] [(1 : ℝ)] [(1 : ℝ)] 0 0 "Straddle"
    h (by decide) (by decide)⟩

/-- C3 counterexample: with the invalid option type "X" the Monte Carlo pricer
does raise the invalid-option-type error, but only after drawing the whole
variate matrix and building every path column — not before the simulation
work. -/
theorem C3_fail_fast_cex :
    MCStep.drewVariates 2 3 ∈
      (monte_carlo_run zeroLib 0 100 110 1 (5 / 100) (2 / 10) "X" 2 3).1 ∧
    MCStep.builtColumn 1 ∈
      (monte_carlo_run zeroLib 0 100 110 1 (5 / 100) (2 / 10) "X" 2 3).1 ∧
    (monte_carlo_run zeroLib 0 100 110 1 (5 / 100) (2 / 10) "X" 2 3).2 =
      Except.error "Invalid Option Type: Choose 'Put' or 'Call'" := by
  refine ⟨?_, ?_, ?_⟩ <;> simp [monte_carlo_run, List.range']

/-- C3 (amended): an `option_type` outside Call/Put makes
`monte_carlo_european` raise the invalid-option-type error and return no
price, but only after the variate matrix has been drawn and all path columns
have been built; no payoff computation or discounting happens. -/
theorem C3_fail_fast_amended (lib : RandomLib) (state : ℕ) (S0 K T r sigma : ℝ)
    (ty : String) (N M : ℕ) (h1 : ty ≠ "Call") (h2 : ty ≠ "Put") :
    monte_carlo_run lib state S0 K T r sigma ty N M =
      (MCStep.drewVariates N M :: (List.range' 1 (M - 1)).map MCStep.builtColumn,
       Except.error "Invalid Option Type: Choose 'Put' or 'Call'") := by
  unfold monte_carlo_run
  rw [if_neg h1, if_neg h2]

/-- Witness for the amended C3 at a concrete input. -/
theorem C3_fail_fast_amended_witness :
    ("X" : String) ≠ "Call" ∧ ("X" : String) ≠ "Put" ∧
    monte_carlo_run zeroLib 7 100 110 1 (5 / 100) (2 / 10) "X" 2 3 =
      ([MCStep.drewVariates 2 3, MCStep.builtColumn 1, MCStep.builtColumn 2],
       Except.error "Invalid Option Type: Choose 'Put' or 'Call'") := by
  refine ⟨by decide, by decide, ?_⟩
  rw [C3_fail_fast_amended zeroLib 7 100 110 1 (5 / 100) (2 / 10) "X" 2 3
    (by decide) (by decide)]
  norm_num [List.range']

/-- C4 counterexample: at `S = [1]`, `K = [1]`, `r = 0`, `t = [1]`, `σ = [1]`,
`q = 1/2` the code gives `d1 = 0`, so the returned call delta and put delta are
equal (`e^(-q t)·N(0)` each) and their difference is `0 ≠ e^(-q t)`: the code's
put delta is `e^(-q t)·N(-d1)` without the textbook `- 1`.  The last two
conjuncts show these arrays are exactly what `black_scholes` returns. -/
theorem C4_delta_symmetry_cex :
    (callDeltaArr [(1 : ℝ)] [(1 : ℝ)] 0 (1 / 2) [(1 : ℝ)] [(1 : ℝ)]).getD 0 0 -
        (putDeltaArr [(1 : ℝ)] [(1 : ℝ)] 0 (1 / 2) [(1 : ℝ)] [(1 : ℝ)]).getD 0 0 ≠
      Real.exp (-(1 / 2) * 1) ∧
    (black_scholes [(1 : ℝ)] [(1 : ℝ)] 0 [(1 : ℝ)] [(1 : ℝ)] "Call" (1 / 2)).toOption.map
        (fun o => o.2.1) =
      some (callDeltaArr [(1 : ℝ)] [(1 : ℝ)] 0 (1 / 2) [(1 : ℝ)] [(1 : ℝ)]) ∧
    (black_scholes [(1 : ℝ)] [(1 : ℝ)] 0 [(1 : ℝ)] [(1 : ℝ)] "Put" (1 / 2)).toOption.map
        (fun o => o.2.1) =
      some (putDeltaArr [(1 : ℝ)] [(1 : ℝ)] 0 (1 / 2) [(1 : ℝ)] [(1 : ℝ)]) := by
  refine ⟨?_, ?_, ?_⟩
  · have hd1 : d1Arr [(1 : ℝ)] [(1 : ℝ)] 0 (1 / 2) [(1 : ℝ)] [(1 : ℝ)] = [0] := by
      norm_num [d1Arr, sqrtArr, bcast2]
    simp only [callDeltaArr, putDeltaArr, Nd1Arr, Nmd1Arr, hd1, expArr, bcast2]
    norm_num [normCdf_zero]
    exact (Real.exp_pos _).ne
  · rw [bs_call_normal _ _ _ _ _ _ (by norm_num)]
    rfl
  · rw [bs_put_normal _ _ _ _ _ _ (by norm_num)]
    rfl

/-- C4 (amended): for matching inputs with `t > 0` and `σ > 0`, the delta
returned by `black_scholes` for a Call PLUS the delta returned for a Put
equals `e^(-q·t)` elementwise (the code's put delta is `e^(-q t)·N(-d1)`,
without the `- 1` of the textbook form, so the sum — not the difference —
gives `e^(-q t)`). -/
theorem C4_delta_symmetry_amended (S K t sigma : List ℝ) (r q : ℝ) (i : ℕ)
    (pC dC gC vC thC rC pP dP gP vP thP rP : List ℝ)
    (hK : K.length = S.length) (ht : t.length = S.length) (hs : sigma.length = S.length)
    (htpos : ∀ x ∈ t, 0 < x) (hspos : ∀ x ∈ sigma, 0 < x) (hi : i < S.length)
    (hC : black_scholes S K r t sigma "Call" q = Except.ok (pC, dC, gC, vC, thC, rC))
    (hP : black_scholes S K r t sigma "Put" q = Except.ok (pP, dP, gP, vP, thP, rP)) :
    dC.getD i 0 + dP.getD i 0 = Real.exp (-q * t.getD i 0) := by
  rw [bs_call_normal S K t sigma r q htpos] at hC
  rw [bs_put_normal S K t sigma r q htpos] at hP
  simp only [Except.ok.injEq, Prod.mk.injEq] at hC hP
  obtain ⟨-, hdC, -, -, -, -⟩ := hC
  obtain ⟨-, hdP, -, -, -, -⟩ := hP
  rw [← hdC, ← hdP, getD_callDeltaArr r q hK ht hs hi, getD_putDeltaArr r q hK ht hs hi,
    ← mul_add, normCdf_add_normCdf_neg, mul_one]

/-- Witness for the amended C4 at a concrete input. -/
theorem C4_delta_symmetry_amended_witness :
    (0 : ℕ) < 1 ∧
    (callDeltaArr [(2 : ℝ)] [(1 : ℝ)] 0 0 [(1 : ℝ)] [(1 : ℝ)]).getD 0 0 +
        (putDeltaArr [(2 : ℝ)] [(1 : ℝ)] 0 0 [(1 : ℝ)] [(1 : ℝ)]).getD 0 0 =
      Real.exp (-0 * ([(1 : ℝ)].getD 0 0)) := by
  refine ⟨by norm_num, ?_⟩
  have hC := bs_call_normal [(2 : ℝ)] [(1 : ℝ)] [(1 : ℝ)] [(1 : ℝ)] 0 0 (by norm_num)
  have hP := bs_put_normal [(2 : ℝ)] [(1 : ℝ)] [(1 : ℝ)] [(1 : ℝ)] 0 0 (by norm_num)
  exact C4_delta_symmetry_amended [(2 : ℝ)] [(1 : ℝ)] [(1 : ℝ)] [(1 : ℝ)] 0 0 0
    _ _ _ _ _ _ _ _ _ _ _ _ rfl rfl rfl (by norm_num) (by norm_num) (by norm_num) hC hP

/-- C5: put–call parity.  For shared inputs with `t > 0` and `σ > 0`, the Call
price returned by `black_scholes` minus the Put price returned by
`black_scholes` equals `S·e^(-q·t) - K·e^(-r·t)` elementwise (exactly, in the
real-number model of floating point). -/
theorem C5_put_call_parity (S K t sigma : List ℝ) (r q : ℝ) (i : ℕ)
    (pC dC gC vC thC rC pP dP gP vP thP rP : List ℝ)
    (hK : K.length = S.length) (ht : t.length = S.length) (hs : sigma.length = S.length)
    (htpos : ∀ x ∈ t, 0 < x) (hspos : ∀ x ∈ sigma, 0 < x) (hi : i < S.length)
    (hC : black_scholes S K r t sigma "Call" q = Except.ok (pC, dC, gC, vC, thC, rC))
    (hP : black_scholes S K r t sigma "Put" q = Except.ok (pP, dP, gP, vP, thP, rP)) :
    pC.getD i 0 - pP.getD i 0 =
      S.getD i 0 * Real.exp (-q * t.getD i 0) -
        K.getD i 0 * Real.exp (-r * t.getD i 0) := by
  rw [bs_call_normal S K t sigma r q htpos] at hC
  rw [bs_put_normal S K t sigma r q htpos] at hP
  simp only [Except.ok.injEq, Prod.mk.injEq] at hC hP
  obtain ⟨hpC, -, -, -, -, -⟩ := hC
  obtain ⟨hpP, -, -, -, -, -⟩ := hP
  rw [← hpC, ← hpP, getD_callPriceArr r q hK ht hs hi, getD_putPriceArr r q hK ht hs hi]
  have h1 := normCdf_add_normCdf_neg ((d1Arr S K r q t sigma).getD i 0)
  have h2 := normCdf_add_normCdf_neg ((d2Arr S K r q t sigma).getD i 0)
  linear_combination (S.getD i 0 * Real.exp (-q * t.getD i 0)) * h1 -
    (K.getD i 0 * Real.exp (-r * t.getD i 0)) * h2

/-- Witness for C5 at a concrete input. -/
theorem C5_put_call_parity_witness :
    (0 : ℕ) < 1 ∧
    (callPriceArr [(2 : ℝ)] [(1 : ℝ)] 0 0 [(1 : ℝ)] [(1 : ℝ)]).getD 0 0 -
        (putPriceArr [(2 : ℝ)] [(1 : ℝ)] 0 0 [(1 : ℝ)] [(1 : ℝ)]).getD 0 0 =
      [(2 : ℝ)].getD 0 0 * Real.exp (-0 * ([(1 : ℝ)].getD 0 0)) -
        [(1 : ℝ)].getD 0 0 * Real.exp (-0 * ([(1 : ℝ)].getD 0 0)) := by
  refine ⟨by norm_num, ?_⟩
  have hC := bs_call_normal [(2 : ℝ)] [(1 : ℝ)] [(1 : ℝ)] [(1 : ℝ)] 0 0 (by norm_num)
  have hP := bs_put_normal [(2 : ℝ)] [(1 : ℝ)] [(1 : ℝ)] [(1 : ℝ)] 0 0 (by norm_num)
  exact C5_put_call_parity [(2 : ℝ)] [(1 : ℝ)] [(1 : ℝ)] [(1 : ℝ)] 0 0 0
    _ _ _ _ _ _ _ _ _ _ _ _ rfl rfl rfl (by norm_num) (by norm_num) (by norm_num) hC hP

/-- C6: with `Δt = T/M`, each simulated path has column 0 pinned to `S0` and
column `j+1` equal to column `j` times `exp((r - 0.5σ²)Δt + σ√Δt·Z[j+1])`; the
path never consumes the column-0 variate (changing `Z` at index 0 changes
nothing), and the terminal column `M-1` equals
`S0·exp(Σ_{k=1}^{M-1} ((r - 0.5σ²)Δt + σ√Δt·Z[k]))`.  The final conjunct shows
the price returned by `monte_carlo_european` (Call branch) is the discounted
mean payoff of exactly these terminal values. -/
theorem C6_gbm_path_construction (lib : RandomLib) (state : ℕ)
    (S0 K T r sigma : ℝ) (N M : ℕ) (Z Zother : ℕ → ℝ) (j : ℕ)
    (hM : 1 ≤ M) (hZ : ∀ k, 1 ≤ k → Z k = Zother k) :
    path_col S0 r sigma (T / (M : ℝ)) Z 0 = S0 ∧
    path_col S0 r sigma (T / (M : ℝ)) Z (j + 1) =
      path_col S0 r sigma (T / (M : ℝ)) Z j *
        Real.exp ((r - 0.5 * sigma ^ 2) * (T / (M : ℝ)) +
          sigma * Real.sqrt (T / (M : ℝ)) * Z (j + 1)) ∧
    path_col S0 r sigma (T / (M : ℝ)) Z j = path_col S0 r sigma (T / (M : ℝ)) Zother j ∧
    path_col S0 r sigma (T / (M : ℝ)) Z (M - 1) =
      S0 * Real.exp (∑ k in Finset.Icc 1 (M - 1),
        ((r - 0.5 * sigma ^ 2) * (T / (M : ℝ)) +
          sigma * Real.sqrt (T / (M : ℝ)) * Z k)) ∧
    monte_carlo_european lib state S0 K T r sigma "Call" N M =
      Except.ok (Real.exp (-r * T) *
        ((Finset.range N).sum (fun i =>
          max (path_col S0 r sigma (T / (M : ℝ))
            (fun k => lib.sample (lib.ofSeed 42) i k) (M - 1) - K) 0) / (N : ℝ))) := by
  refine ⟨rfl, rfl, path_col_congr _ _ _ _ _ _ hZ j, path_col_closed _ _ _ _ _ _, ?_⟩
  unfold monte_carlo_european monte_carlo_run
  rw [if_pos rfl]

/-- Witness for C6 at a concrete input. -/
theorem C6_gbm_path_construction_witness :
    (1 : ℕ) ≤ 2 ∧
    path_col 100 0 1 ((1 : ℝ) / (2 : ℕ)) (fun _ => 0) 0 = 100 ∧
    path_col 100 0 1 ((1 : ℝ) / (2 : ℕ)) (fun _ => 0) (0 + 1) =
      path_col 100 0 1 ((1 : ℝ) / (2 : ℕ)) (fun _ => 0) 0 *
        Real.exp ((0 - 0.5 * 1 ^ 2) * ((1 : ℝ) / (2 : ℕ)) +
          1 * Real.sqrt ((1 : ℝ) / (2 : ℕ)) * (fun _ => (0 : ℝ)) (0 + 1)) ∧
    path_col 100 0 1 ((1 : ℝ) / (2 : ℕ)) (fun _ => 0) 0 =
      path_col 100 0 1 ((1 : ℝ) / (2 : ℕ)) (fun _ => 0) 0 ∧
    path_col 100 0 1 ((1 : ℝ) / (2 : ℕ)) (fun _ => 0) (2 - 1) =
      100 * Real.exp (∑ k in Finset.Icc 1 (2 - 1),
        ((0 - 0.5 * 1 ^ 2) * ((1 : ℝ) / (2 : ℕ)) +
          1 * Real.sqrt ((1 : ℝ) / (2 : ℕ)) * (fun _ => (0 : ℝ)) k)) ∧
    monte_carlo_european zeroLib 5 100 110 1 0 1 "Call" 3 2 =
      Except.ok (Real.exp (-0 * 1) *
        ((Finset.range 3).sum (fun i =>
          max (path_col 100 0 1 ((1 : ℝ) / (2 : ℕ))
            (fun k => zeroLib.sample (zeroLib.ofSeed 42) i k) (2 - 1) - 110) 0) / (3 : ℝ))) := by
  refine ⟨by norm_num, ?_⟩
  exact C6_gbm_path_construction zeroLib 5 100 110 1 0 1 3 2 (fun _ => 0) (fun _ => 0) 0
    (by norm_num) (fun k _ => rfl)

/-- C8: for a valid option type and at least one path and one step, the price
returned by `monte_carlo_european` is nonnegative: per-path payoffs are floored
at zero before averaging, and the discount factor `e^(-rT)` is positive. -/
theorem C8_price_nonneg (lib : RandomLib) (state : ℕ) (S0 K T r sigma : ℝ)
    (ty : String) (N M : ℕ) (p : ℝ)
    (hty : ty = "Call" ∨ ty = "Put") (hN : 1 ≤ N) (hM : 1 ≤ M)
    (hp : monte_carlo_european lib state S0 K T r sigma ty N M = Except.ok p) :
    0 ≤ p := by
  rcases hty with h | h
  · subst h
    unfold monte_carlo_european monte_carlo_run at hp
    rw [if_pos rfl] at hp
    simp only [Except.ok.injEq] at hp
    rw [← hp]
    apply mul_nonneg (Real.exp_nonneg _)
    exact div_nonneg (Finset.sum_nonneg fun i _ => le_max_right _ 0) (Nat.cast_nonneg N)
  · subst h
    unfold monte_carlo_european monte_carlo_run at hp
    rw [if_neg (by decide), if_pos rfl] at hp
    simp only [Except.ok.injEq] at hp
    rw [← hp]
    apply mul_nonneg (Real.exp_nonneg _)
    exact div_nonneg (Finset.sum_nonneg fun i _ => le_max_right _ 0) (Nat.cast_nonneg N)

/-- Witness for C8 at a concrete input whose price evaluates to `10 ≥ 0`. -/
theorem C8_price_nonneg_witness :
    (("Call" : String) = "Call" ∨ ("Call" : String) = "Put") ∧ (1 : ℕ) ≤ 1 ∧
    monte_carlo_european zeroLib 0 100 90 1 0 0 "Call" 1 1 = Except.ok 10 ∧
    (0 : ℝ) ≤ 10 := by
  have heval : monte_carlo_european zeroLib 0 100 90 1 0 0 "Call" 1 1 = Except.ok 10 := by
    unfold monte_carlo_european monte_carlo_run
    rw [if_pos rfl]
    norm_num [path_col, Finset.sum_range_one]
  exact ⟨Or.inl rfl, le_refl 1, heval,
    C8_price_nonneg zeroLib 0 100 90 1 0 0 "Call" 1 1 10 (Or.inl rfl) (le_refl 1)
      (le_refl 1) heval⟩

/-- C9: with a valid option type and identical parameters, any two calls to
`monte_carlo_european` return the identical result no matter what generator
state (`s1` vs `s2`) was left behind by earlier code, because the function
reseeds the generator with the fixed seed 42 at the start of every call
(floating-point bit-for-bit identity is modelled as real-number equality). -/
theorem C9_reseed_determinism (lib : RandomLib) (s1 s2 : ℕ) (S0 K T r sigma : ℝ)
    (ty : String) (N M : ℕ) (hty : ty = "Call" ∨ ty = "Put") :
    monte_carlo_european lib s1 S0 K T r sigma ty N M =
      monte_carlo_european lib s2 S0 K T r sigma ty N M := rfl

/-- Witness for C9 at a concrete input with two different prior states. -/
theorem C9_reseed_determinism_witness :
    (("Put" : String) = "Call" ∨ ("Put" : String) = "Put") ∧
    monte_carlo_european zeroLib 3 100 110 1 0 1 "Put" 2 2 =
      monte_carlo_european zeroLib 99 100 110 1 0 1 "Put" 2 2 :=
  ⟨Or.inr rfl, C9_reseed_determinism zeroLib 3 99 100 110 1 0 1 "Put" 2 2 (Or.inr rfl)⟩

/-- C10: with `num_steps = 1` the path loop `range(1, 1)` is empty, the
terminal column is column 0 (= S0), and `monte_carlo_european` returns exactly
`e^(-rT)·max(S0-K, 0)` for a Call and `e^(-rT)·max(K-S0, 0)` for a Put,
independent of `sigma`, of the generator and of the drawn variates. -/
theorem C10_single_step_intrinsic (lib : RandomLib) (state : ℕ)
    (S0 K T r sigma : ℝ) (N : ℕ) (hN : 1 ≤ N) :
    monte_carlo_european lib state S0 K T r sigma "Call" N 1 =
      Except.ok (Real.exp (-r * T) * max (S0 - K) 0) ∧
    monte_carlo_european lib state S0 K T r sigma "Put" N 1 =
      Except.ok (Real.exp (-r * T) * max (K - S0) 0) := by
  have hNR : (N : ℝ) ≠ 0 := Nat.cast_ne_zero.mpr (by omega)
  constructor
  · unfold monte_carlo_european monte_carlo_run
    rw [if_pos rfl]
    simp only [Nat.sub_self, path_col, Except.ok.injEq]
    rw [Finset.sum_const, Finset.card_range, nsmul_eq_mul, mul_div_cancel_left₀ _ hNR]
  · unfold monte_carlo_european monte_carlo_run
    rw [if_neg (by decide), if_pos rfl]
    simp only [Nat.sub_self, path_col, Except.ok.injEq]
    rw [Finset.sum_const, Finset.card_range, nsmul_eq_mul, mul_div_cancel_left₀ _ hNR]

/-- Witness for C10 at a concrete input. -/
theorem C10_single_step_intrinsic_witness :
    (1 : ℕ) ≤ 2 ∧
    monte_carlo_european zeroLib 0 100 110 1 0 5 "Call" 2 1 =
      Except.ok (Real.exp (-0 * 1) * max ((100 : ℝ) - 110) 0) ∧
    monte_carlo_european zeroLib 0 100 110 1 0 5 "Put" 2 1 =
      Except.ok (Real.exp (-0 * 1) * max ((110 : ℝ) - 100) 0) := by
  refine ⟨by norm_num, ?_⟩
  exact C10_single_step_intrinsic zeroLib 0 100 110 1 0 5 2 (by norm_num)

/-- C7 counterexample: with scalar `S = [5]`, array `K = [1,2,3]` and expired
`t = [-1]`, the price has the broadcast length 3 but all five Greeks have
length 1 (`np.zeros_like(S)`), not the broadcast shape — and `1 ≠ 3`. -/
theorem C7_broadcast_shape_cex :
    shapesOf (black_scholes [(5 : ℝ)] [(1 : ℝ), 2, 3] 0 [(-1 : ℝ)] [(1 : ℝ)] "Call" 0) =
      some (3, 1, 1, 1, 1, 1) ∧ (1 : ℕ) ≠ 3 := by
  constructor
  · unfold black_scholes
    rw [if_pos ⟨-1, by simp, by norm_num⟩, if_pos rfl]
    simp [shapesOf, bcast2]
  · decide

/-- C7 (amended): when every element of `t` is positive and the four 1-D
inputs are NumPy-broadcast-compatible — every length is 1 or the common
broadcast length `n`, with some input of length `n` — all six returned fields
have the broadcast length `n`; but when some element of `t` is `≤ 0` (with `S`
and `K` broadcast-compatible), only the price has the broadcast length of `S`
and `K` — the five Greeks all have the length of `S` (`np.zeros_like(S)`),
which differs from the broadcast shape whenever `S` is a scalar and `K` is a
longer array. -/
theorem C7_result_shapes (S K t sigma : List ℝ) (r q : ℝ) (ty : String)
    (hty : ty = "Call" ∨ ty = "Put") :
    (∀ n : ℕ, (∀ x ∈ t, 0 < x) →
      (S.length = 1 ∨ S.length = n) → (K.length = 1 ∨ K.length = n) →
      (t.length = 1 ∨ t.length = n) → (sigma.length = 1 ∨ sigma.length = n) →
      (S.length = n ∨ K.length = n ∨ t.length = n ∨ sigma.length = n) →
      shapesOf (black_scholes S K r t sigma ty q) =
        some (n, n, n, n, n, n)) ∧
    ((∃ x ∈ t, x ≤ 0) →
      (S.length = K.length ∨ S.length = 1 ∨ K.length = 1) →
      shapesOf (black_scholes S K r t sigma ty q) =
        some (bcLen S.length K.length, S.length, S.length, S.length, S.length,
          S.length)) := by
  constructor
  · intro n htpos hS hK ht hs hn
    obtain ⟨h1, h2, h3, h4, h5, h6, h7, h8, h9, h10⟩ :=
      length_fields_bc r q hS hK ht hs hn
    rcases hty with h | h
    · subst h
      rw [bs_call_normal S K t sigma r q htpos]
      simp only [shapesOf]
      rw [h1, h2, h3, h4, h5, h6]
    · subst h
      rw [bs_put_normal S K t sigma r q htpos]
      simp only [shapesOf]
      rw [h7, h8, h3, h4, h9, h10]
  · intro hexp hbc
    unfold black_scholes
    rw [if_pos hexp]
    rcases hty with h | h
    · subst h
      rw [if_pos rfl]
      simp [shapesOf]
    · subst h
      rw [if_neg (by decide)]
      simp only [shapesOf, List.length_map, length_bcast2, List.length_replicate,
        Option.some.injEq, Prod.mk.injEq]
      exact ⟨bcLen_comm _ _, trivial⟩

/-- Witness for the amended C7: the normal branch at the library's own
broadcast demo shapes (array `S`, scalar `K`, `t`, `σ`), and the expired
branch at mismatched broadcastable shapes. -/
theorem C7_result_shapes_witness :
    shapesOf (black_scholes [(100 : ℝ), 105, 110] [(110 : ℝ)] (5 / 100) [(1 : ℝ)]
        [(2 / 10 : ℝ)] "Call" (2 / 100)) =
      some (3, 3, 3, 3, 3, 3) ∧
    shapesOf (black_scholes [(5 : ℝ)] [(1 : ℝ), 2, 3] 0 [(-1 : ℝ)] [(1 : ℝ)] "Put" 0) =
      some (3, 1, 1, 1, 1, 1) := by
  constructor
  · exact (C7_result_shapes [(100 : ℝ), 105, 110] [(110 : ℝ)] [(1 : ℝ)] [(2 / 10 : ℝ)]
      (5 / 100) (2 / 100) "Call" (Or.inl rfl)).1 3 (by norm_num) (Or.inr rfl)
      (Or.inl rfl) (Or.inl rfl) (Or.inl rfl) (Or.inl rfl)
  · have h := (C7_result_shapes [(5 : ℝ)] [(1 : ℝ), 2, 3] [(-1 : ℝ)] [(1 : ℝ)] 0 0 "Put"
      (Or.inr rfl)).2 ⟨-1, by simp, by norm_num⟩ (Or.inr (Or.inl rfl))
    simpa [bcLen] using h

end

end DerivLib
